import Mathlib

/-!
Verification development for the waku-demo chat SDK
(`src/sdk/chat-sdk.ts`, `src/sdk/types.ts`, `src/App.tsx`,
`src/__tests__/chat-sdk.test.ts`).

The repository ships two variants of the `ChatSDK` class: a basic one in
`chat-sdk.ts` (no signatures or MACs, conversation key derived from the
conversation id alone, no revoke authorization check) and an extended one
(appended in `types.ts`) with message signatures, MACs, retrying publish,
key derivation from conversation id plus the caller's public key, and a
sender-authorization check in `revokeMessage`.  The extended variant is
the complete one and is modelled here as the primary `SDKState` model;
the basic variant's key derivation is modelled separately where the two
diverge.

`keccak256` (from ethers), `TextEncoder`/`TextDecoder` (UTF-8), and
`JSON.stringify` of the message records are modelled concretely so that
the cryptographic checks of the source can be evaluated on concrete
inputs.
-/

namespace Keccak

/-- 2^64, the lane modulus of Keccak-f[1600]. -/
def W : Nat := 18446744073709551616

/-- 64-bit rotate left. -/
def rotl64 (x n : Nat) : Nat :=
  (((x <<< (n % 64)) ||| (x >>> (64 - n % 64)))) % W

/-- The 24 round constants of Keccak-f[1600], three per row. -/
def RCRows : List (List Nat) :=
  [[0x0000000000000001, 0x0000000000008082, 0x800000000000808A],
   [0x8000000080008000, 0x000000000000808B, 0x0000000080000001],
   [0x8000000080008081, 0x8000000000008009, 0x000000000000008A],
   [0x0000000000000088, 0x0000000080008009, 0x000000008000000A],
   [0x000000008000808B, 0x800000000000008B, 0x8000000000008089],
   [0x8000000000008003, 0x8000000000008002, 0x8000000000000080],
   [0x000000000000800A, 0x800000008000000A, 0x8000000080008081],
   [0x8000000000008080, 0x0000000080000001, 0x8000000080008008]]

/-- The flat round-constant list. -/
def RC : List Nat := RCRows.flatten

/-- ρ rotation offsets, one row per `y`, indexed by `x` within a row. -/
def rotOffRows : List (List Nat) :=
  [[0, 1, 62, 28, 27],
   [36, 44, 6, 55, 20],
   [3, 10, 43, 25, 39],
   [41, 45, 15, 21, 8],
   [18, 2, 61, 56, 14]]

/-- Rotation offsets, indexed by `x + 5 * y`. -/
def rotOff : List Nat := rotOffRows.flatten

/-- Lane `(x, y)` of a 25-lane state (coordinates taken mod 5). -/
def lane (s : List Nat) (x y : Nat) : Nat :=
  s.getD (x % 5 + 5 * (y % 5)) 0

/-- θ step. -/
def theta (s : List Nat) : List Nat :=
  let c := fun x => lane s x 0 ^^^ lane s x 1 ^^^ lane s x 2 ^^^ lane s x 3 ^^^ lane s x 4
  let d := fun x => c ((x + 4) % 5) ^^^ rotl64 (c ((x + 1) % 5)) 1
  (List.range 25).map (fun j => s.getD j 0 ^^^ d (j % 5))

/-- ρ and π steps combined. -/
def rhoPi (s : List Nat) : List Nat :=
  (List.range 25).map (fun j =>
    let bx := j % 5
    let by_ := j / 5
    let x := (bx + 3 * by_) % 5
    let y := bx
    rotl64 (lane s x y) (rotOff.getD (x + 5 * y) 0))

/-- χ step. -/
def chi (s : List Nat) : List Nat :=
  (List.range 25).map (fun j =>
    let x := j % 5
    let y := j / 5
    lane s x y ^^^ (((W - 1) ^^^ lane s (x + 1) y) &&& lane s (x + 2) y))

/-- One Keccak-f round with round constant `rc`. -/
def round (rc : Nat) (s : List Nat) : List Nat :=
  let s' := chi (rhoPi (theta s))
  match s' with
  | [] => []
  | a :: rest => (a ^^^ rc) :: rest

/-- The full 24-round Keccak-f[1600] permutation. -/
def keccakF (s : List Nat) : List Nat :=
  RC.foldl (fun acc rc => round rc acc) s

/-- Multi-rate padding for the original Keccak (domain byte 0x01), rate 136. -/
def pad (msg : List Nat) : List Nat :=
  let r := 136
  let padLen := r - msg.length % r
  if padLen = 1 then msg ++ [0x81]
  else msg ++ [0x01] ++ List.replicate (padLen - 2) 0 ++ [0x80]

/-- Interpret 8 bytes (little-endian) as one 64-bit lane. -/
def bytesToLane (bs : List Nat) : Nat :=
  bs.foldr (fun b acc => acc * 256 + b) 0

/-- A byte list as little-endian 64-bit lanes, 8 bytes per lane
(structural recursion so the kernel can evaluate it). -/
def blockToLanes : List Nat → List Nat
  | b0 :: b1 :: b2 :: b3 :: b4 :: b5 :: b6 :: b7 :: rest =>
    bytesToLane [b0, b1, b2, b3, b4, b5, b6, b7] :: blockToLanes rest
  | [] => []
  | rest => [bytesToLane rest]

/-- XOR a 17-lane block into the first 17 lanes of the 25-lane state. -/
def absorbBlock (s : List Nat) (block : List Nat) : List Nat :=
  let lanes := blockToLanes block
  (List.range 25).map (fun j => s.getD j 0 ^^^ lanes.getD j 0)

/-- A 64-bit lane as 8 little-endian bytes. -/
def laneToBytes (x : Nat) : List Nat :=
  (List.range 8).map (fun k => (x >>> (8 * k)) % 256)

/-- Absorb the padded message 136 bytes at a time; `fuel` bounds the
number of blocks (structural recursion so the kernel can evaluate it). -/
def absorb (fuel : Nat) (s : List Nat) (l : List Nat) : List Nat :=
  match fuel with
  | 0 => s
  | fuel' + 1 =>
    match l with
    | [] => s
    | _ => absorb fuel' (keccakF (absorbBlock s (l.take 136))) (l.drop 136)

/-- keccak256 over a byte list: the first 32 bytes of the squeezed state. -/
def keccak256Bytes (msg : List Nat) : List Nat :=
  let padded := pad msg
  let final := absorb padded.length (List.replicate 25 0) padded
  ((final.take 4).map laneToBytes).flatten

/-- Lowercase hex digit of a value below 16. -/
def hexDigit (n : Nat) : Char :=
  if n < 10 then Char.ofNat (48 + n) else Char.ofNat (87 + n)

/-- A byte as two lowercase hex characters. -/
def byteToHex (b : Nat) : List Char :=
  [hexDigit (b / 16 % 16), hexDigit (b % 16)]

end Keccak

/-- UTF-8 encoding of a single character (the `TextEncoder` model). -/
def utf8EncodeChar (c : Char) : List Nat :=
  let n := c.toNat
  if n < 0x80 then [n]
  else if n < 0x800 then [0xC0 + n / 64, 0x80 + n % 64]
  else if n < 0x10000 then [0xE0 + n / 4096, 0x80 + n / 64 % 64, 0x80 + n % 64]
  else [0xF0 + n / 262144, 0x80 + n / 4096 % 64, 0x80 + n / 64 % 64, 0x80 + n % 64]

/-- `toUtf8Bytes` / `TextEncoder.encode`: UTF-8 bytes of a string. -/
def toUtf8Bytes (s : String) : List Nat :=
  (s.data.map utf8EncodeChar).flatten

/-- `keccak256` as used via ethers: `"0x"` followed by 64 lowercase hex digits. -/
def keccak256 (bytes : List Nat) : String :=
  ⟨'0' :: 'x' :: ((Keccak.keccak256Bytes bytes).map Keccak.byteToHex).flatten⟩

/-- The Unicode replacement character produced by `TextDecoder` on
malformed input. -/
def replacementChar : Char := Char.ofNat 0xFFFD

/-- Number of continuation bytes expected after lead byte `b`. -/
def contCount (b : Nat) : Nat :=
  if b < 0xC2 then 0 else if b < 0xE0 then 1 else if b < 0xF0 then 2 else 3

/-- The character decoded from lead byte `b` and its continuation
bytes. -/
def decodeLead (b : Nat) (cont : List Nat) : Char :=
  if b < 0x80 then Char.ofNat b
  else if b < 0xC2 then replacementChar
  else if b < 0xE0 then Char.ofNat ((b - 0xC0) * 64 + (cont.getD 0 0 - 0x80))
  else if b < 0xF0 then
    Char.ofNat ((b - 0xE0) * 4096 + (cont.getD 0 0 - 0x80) * 64 + (cont.getD 1 0 - 0x80))
  else
    Char.ofNat ((b - 0xF0) * 262144 + (cont.getD 0 0 - 0x80) * 4096 +
      (cont.getD 1 0 - 0x80) * 64 + (cont.getD 2 0 - 0x80))

/-- UTF-8 decoding of a byte list (the `TextDecoder` model; on
well-formed input it inverts `toUtf8Bytes`, truncated sequences fall
back to the replacement character). -/
def utf8DecodeBytes : List Nat → List Char
  | [] => []
  | b :: bs =>
    if bs.length < contCount b then [replacementChar]
    else decodeLead b (bs.take (contCount b)) :: utf8DecodeBytes (bs.drop (contCount b))
termination_by l => l.length
decreasing_by
  simp only [List.length_drop, List.length_cons]
  omega

/-- `TextDecoder.decode` as a string. -/
def utf8Decode (bs : List Nat) : String := ⟨utf8DecodeBytes bs⟩

/-- `String.prototype.slice(0, n)`: the first `n` characters (the
strings sliced here are ASCII hex digests, where JS code units and
characters coincide). -/
def jsSlice (s : String) (n : Nat) : String := ⟨s.data.take n⟩

/-- JSON escaping of one character, per `JSON.stringify`. -/
def jsonEscapeChar (c : Char) : List Char :=
  if c = '"' then ['\\', '"']
  else if c = '\\' then ['\\', '\\']
  else if c = Char.ofNat 8 then ['\\', 'b']
  else if c = Char.ofNat 9 then ['\\', 't']
  else if c = Char.ofNat 10 then ['\\', 'n']
  else if c = Char.ofNat 12 then ['\\', 'f']
  else if c = Char.ofNat 13 then ['\\', 'r']
  else if c.toNat < 32 then
    ['\\', 'u', '0', '0', Keccak.hexDigit (c.toNat / 16), Keccak.hexDigit (c.toNat % 16)]
  else [c]

/-- A JSON string literal: quoted and escaped. -/
def jsonString (s : String) : String :=
  ⟨'"' :: (s.data.map jsonEscapeChar).flatten ++ ['"']⟩

/-! ## Data model (`types.ts` interfaces) -/

/-- `Message.type`: `'text' | 'tombstone'`. -/
inductive MsgType where
  | text
  | tombstone
deriving DecidableEq, Repr

/-- The `Message` interface.  Optional fields (`tombstoneFor`,
`signature`, `mac`) are `Option`s; `none` models the JS property being
absent from the object. -/
structure Message where
  id : String
  conversationId : String
  sender : String
  content : String
  timestamp : Nat
  type : MsgType
  tombstoneFor : Option String := none
  signature : Option String := none
  mac : Option String := none
deriving DecidableEq, Repr

/-- `Conversation.type`: `'direct' | 'group'`. -/
inductive ConvType where
  | direct
  | group
deriving DecidableEq, Repr

/-- The `Conversation` interface. -/
structure Conversation where
  id : String
  type : ConvType
  participants : List String
  name : Option String := none
deriving DecidableEq, Repr

/-- The `UserIdentity` interface. -/
structure UserIdentity where
  peerId : String
  privateKey : String
  publicKey : String
deriving DecidableEq, Repr

/-- The JSON text of `Message.type`. -/
def MsgType.str : MsgType → String
  | .text => "text"
  | .tombstone => "tombstone"

/-- `JSON.stringify` of a `Message` object.  Key order follows the
object-literal construction in the source (`id, conversationId, sender,
content, timestamp, type, tombstoneFor?`), with `signature` and `mac`
assigned afterwards and hence serialized last.  The flags model the
source's `{ ...message, signature: undefined }` (and `mac: undefined`)
spreads: `JSON.stringify` drops a key whose value is `undefined`, so a
cleared field simply does not appear. -/
def stringifyMessage (m : Message) (withSig withMac : Bool) : String :=
  "\x7b\"id\":" ++ jsonString m.id ++
  ",\"conversationId\":" ++ jsonString m.conversationId ++
  ",\"sender\":" ++ jsonString m.sender ++
  ",\"content\":" ++ jsonString m.content ++
  ",\"timestamp\":" ++ toString m.timestamp ++
  ",\"type\":" ++ jsonString m.type.str ++
  (match m.tombstoneFor with
   | some t => ",\"tombstoneFor\":" ++ jsonString t
   | none => "") ++
  (match withSig, m.signature with
   | true, some s => ",\"signature\":" ++ jsonString s
   | _, _ => "") ++
  (match withMac, m.mac with
   | true, some s => ",\"mac\":" ++ jsonString s
   | _, _ => "") ++
  "\x7d"

/-! ## MessageCodec (`types.ts` extended `ChatSDK`) -/

/-- `signMessage` (types.ts:274): keccak256 of
`JSON.stringify({ ...message, signature: undefined })`.  Note that only
the `signature` field is excluded — a `mac` field present on the message
is serialized into the hashed data. -/
def signMessage (m : Message) : String :=
  keccak256 (toUtf8Bytes (stringifyMessage m false true))

/-- `verifySignature` (types.ts:285): a message with no signature field
fails; otherwise recompute the hash (again excluding only `signature`)
and compare. -/
def verifySignature (m : Message) : Bool :=
  match m.signature with
  | none => false
  | some s => s == keccak256 (toUtf8Bytes (stringifyMessage m false true))

/-- `generateMAC` (types.ts:259): keccak256 of
`JSON.stringify({ ...message, signature: undefined, mac: undefined })`
concatenated with `"_" ++ key`. -/
def generateMAC (m : Message) (key : String) : String :=
  keccak256 (toUtf8Bytes (stringifyMessage m false false ++ "_" ++ key))

/-- `verifyMAC` (types.ts:265). -/
def verifyMAC (m : Message) (key : String) : Bool :=
  match m.mac with
  | none => false
  | some s => s == generateMAC m key

/-- `generateEncryptionKey` of the extended variant (types.ts:203): the
first 32 characters of
`keccak256(toUtf8Bytes(conversationId ++ "_" ++ identity.publicKey))`.
The caller's own public key enters the derivation. -/
def generateEncryptionKey (conversationId publicKey : String) : String :=
  jsSlice (keccak256 (toUtf8Bytes (conversationId ++ "_" ++ publicKey))) 32

namespace ChatSDKBasic

/-- `generateEncryptionKey` of the basic variant (chat-sdk.ts:112): the
first 32 characters of `keccak256(toUtf8Bytes(conversationId))` — the
conversation id alone. -/
def generateEncryptionKey (conversationId : String) : String :=
  jsSlice (keccak256 (toUtf8Bytes conversationId)) 32

end ChatSDKBasic

/-- The key stream byte at position `i` used by the XOR loop:
`derivedKeyBytes[i % derivedKeyBytes.length]`.  An out-of-range /
empty-array access yields `undefined`, which `^` coerces to `0`. -/
def keyStreamAt (keyBytes : List Nat) (i : Nat) : Nat :=
  keyBytes.getD (i % keyBytes.length) 0

/-- The derived key bytes of `encryptMessage`/`decryptMessage`
(types.ts:226): UTF-8 bytes of the first 32 characters of
`keccak256(toUtf8Bytes(key))`. -/
def derivedKeyBytes (key : String) : List Nat :=
  toUtf8Bytes (jsSlice (keccak256 (toUtf8Bytes key)) 32)

/-- `encryptMessage` (types.ts:215): XOR the UTF-8 plaintext bytes with
the repeated derived key bytes. -/
def encryptMessage (plaintext key : String) : List Nat :=
  let pb := toUtf8Bytes plaintext
  let kb := derivedKeyBytes key
  (List.range pb.length).map (fun i => pb.getD i 0 ^^^ keyStreamAt kb i)

/-- `decryptMessage` (types.ts:237): XOR the ciphertext bytes with the
repeated derived key bytes and decode as UTF-8. -/
def decryptMessage (ciphertext : List Nat) (key : String) : String :=
  let kb := derivedKeyBytes key
  utf8Decode ((List.range ciphertext.length).map
    (fun i => ciphertext.getD i 0 ^^^ keyStreamAt kb i))

/-! ## SDK state and operations (extended `ChatSDK` in `types.ts`) -/

/-- The errors thrown synchronously by the SDK operations, named after
the spec's taxonomy.  `notAuthorSender` is the
`'Only the original sender can revoke this message'` throw. -/
inductive ChatError where
  | notInitialized
  | conversationNotFound
  | encryptionKeyMissing
  | notAuthorSender
deriving DecidableEq, Repr

/-- The mutable instance state of one `ChatSDK` object.  The JS `Map`s
and `Set` are modelled as functions with the same lookup behaviour;
`notified` records every message handed to `notifyMessageHandlers`
(dispatch to whatever handlers are registered); `node` records whether a
Waku node is attached (`this.node !== null`). -/
structure SDKState where
  identity : Option UserIdentity
  conversations : String → Option Conversation
  store : String → List Message
  encryptionKeys : String → Option String
  processedMessageIds : String → Bool
  notified : List Message
  node : Bool

/-- `storeMessage` (types.ts:627): skip if the id was already processed,
otherwise mark it processed and push onto the conversation's log. -/
def storeMessage (st : SDKState) (m : Message) : SDKState :=
  if st.processedMessageIds m.id then st
  else
    { st with
      processedMessageIds := fun i => i == m.id || st.processedMessageIds i
      store := fun c => if c = m.conversationId then st.store c ++ [m] else st.store c }

/-- `notifyMessageHandlers` (types.ts:641), modelled as recording the
dispatched message. -/
def notifyMessageHandlers (st : SDKState) (m : Message) : SDKState :=
  { st with notified := st.notified ++ [m] }

/-- `getMessages` (types.ts:654): the raw per-conversation log,
`[]` when the conversation has no entry. -/
def getMessages (st : SDKState) (conversationId : String) : List Message :=
  st.store conversationId

/-- `deleteMessageLocally` (types.ts:646): filter the conversation's log
by id; the processed-id dedup set is untouched. -/
def deleteMessageLocally (st : SDKState) (conversationId messageId : String) : SDKState :=
  { st with
    store := fun c =>
      if c = conversationId then (st.store c).filter (fun m => m.id ≠ messageId)
      else st.store c }

/-- Trace events of `sendMessage`, recording the order of the local
append, the local handler dispatch, and the network publish attempt. -/
inductive Event where
  | appended (id : String)
  | notified (id : String)
  | publishAttempted (id : String) (ok : Bool)
deriving DecidableEq, Repr

/-- The signed and MAC'd text message built by `sendMessage`
(types.ts:346-365): built, then `signature` assigned (before any `mac`
field exists), then `mac` assigned over the sign-and-mac-free
serialization. -/
def mkSentMessage (conversationId content newId senderId key : String) (now : Nat) : Message :=
  let m0 : Message :=
    { id := newId, conversationId := conversationId, sender := senderId
      content := content, timestamp := now, type := .text }
  let m1 := { m0 with signature := some (signMessage m0) }
  { m1 with mac := some (generateMAC m1 key) }

/-- `sendMessage` (types.ts:335).  Nondeterministic inputs are explicit
arguments: `newId` is the generated uuid, `now` the clock, and
`publishOk` the outcome of the network publish (retry loop included).
The message is built, signed, MAC'd, encrypted, stored locally, handed
to the handlers, and only then published; a publish failure is caught
and the generated id returned regardless. -/
def sendMessage (st : SDKState) (conversationId content newId : String) (now : Nat)
    (publishOk : Bool) : Except ChatError (String × SDKState × List Event) :=
  match st.identity with
  | none => .error .notInitialized
  | some ident =>
    match st.conversations conversationId with
    | none => .error .conversationNotFound
    | some _ =>
      match st.encryptionKeys conversationId with
      | none => .error .encryptionKeyMissing
      | some key =>
        let m2 := mkSentMessage conversationId content newId ident.peerId key now
        let _payload := encryptMessage (stringifyMessage m2 true true) key
        let st1 := notifyMessageHandlers (storeMessage st m2) m2
        let ev := [Event.appended newId, Event.notified newId] ++
          (if st.node then [Event.publishAttempted newId publishOk] else [])
        .ok (newId, st1, ev)

/-- The signed tombstone message built by `revokeMessage`
(types.ts:430-441): a fresh-id tombstone referencing `messageId`, with
empty content, signed but never MAC'd. -/
def mkTombstone (conversationId messageId tombId senderId : String) (now : Nat) : Message :=
  let t0 : Message :=
    { id := tombId, conversationId := conversationId, sender := senderId
      content := "", timestamp := now, type := .tombstone
      tombstoneFor := some messageId }
  { t0 with signature := some (signMessage t0) }

/-- `revokeMessage` (types.ts:412).  `tombId` is the generated uuid of
the tombstone.  The sender check runs only when the target id is found
in the local log; the tombstone is signed (never MAC'd), stored, handed
to the handlers, and the publish outcome is swallowed. -/
def revokeMessage (st : SDKState) (conversationId messageId tombId : String) (now : Nat) :
    Except ChatError (String × SDKState) :=
  match st.identity with
  | none => .error .notInitialized
  | some ident =>
    match st.conversations conversationId with
    | none => .error .conversationNotFound
    | some _ =>
      let messages := getMessages st conversationId
      match messages.find? (fun m => m.id == messageId) with
      | some target =>
        if target.sender ≠ ident.peerId then .error .notAuthorSender
        else
          let t1 := mkTombstone conversationId messageId tombId ident.peerId now
          .ok (tombId, notifyMessageHandlers (storeMessage st t1) t1)
      | none =>
        let t1 := mkTombstone conversationId messageId tombId ident.peerId now
        .ok (tombId, notifyMessageHandlers (storeMessage st t1) t1)

/-! ## Conversation creation -/

/-- `[...new Set(l)]`: deduplication keeping first occurrences in
insertion order. -/
def jsSetDedup (l : List String) : List String :=
  go l []
where
  go : List String → List String → List String
    | [], _ => []
    | x :: xs, seen => if x ∈ seen then go xs seen else x :: go xs (x :: seen)

/-- `Array.prototype.sort()` on strings: sorted ascending (the JS
default comparator compares code units; on the ASCII identifiers used
here this coincides with the `String` order). -/
def jsSort (l : List String) : List String :=
  List.insertionSort (· ≤ ·) l

/-- `generateConversationId` (types.ts:296): for direct conversations,
the sorted participants joined by `"_"`; for groups, `"group_"` plus a
random uuid (passed explicitly). -/
def generateConversationId (participants : List String) (type : ConvType)
    (uuid : String) : String :=
  match type with
  | .direct => String.intercalate "_" (jsSort participants)
  | .group => "group_" ++ uuid

/-- `createConversation` (types.ts:171): canonicalize participants (own
peer id inserted, deduplicated, sorted), derive the id, return the
existing conversation unchanged if present, otherwise derive the key and
register the conversation. -/
def createConversation (st : SDKState) (participants : List String) (type : ConvType)
    (name : Option String) (uuid : String) :
    Except ChatError (Conversation × SDKState) :=
  match st.identity with
  | none => .error .notInitialized
  | some ident =>
    let allParticipants := jsSort (jsSetDedup (ident.peerId :: participants))
    let conversationId := generateConversationId allParticipants type uuid
    match st.conversations conversationId with
    | some existing => .ok (existing, st)
    | none =>
      let conversation : Conversation :=
        { id := conversationId, type := type, participants := allParticipants, name := name }
      let key := generateEncryptionKey conversationId ident.publicKey
      let st' :=
        { st with
          encryptionKeys := fun c =>
            if c = conversationId then some key else st.encryptionKeys c
          conversations := fun c =>
            if c = conversationId then some conversation else st.conversations c }
      .ok (conversation, st')

/-! ## The consumer-side visible-message projection -/

/-- The visible-message projection computed by the repository's
consumers (test `消息撤回后各端一致显示`, chat-sdk.test.ts:110): drop
every tombstone, and drop every message whose id is the `tombstoneFor`
target of some stored tombstone of the same conversation log. -/
def visibleMessages (messages : List Message) : List Message :=
  messages.filter (fun m =>
    if m.type = .tombstone then false
    else ! messages.any (fun t => t.type == .tombstone && t.tombstoneFor == some m.id))

/-! ## Concrete fixtures used by witnesses and counterexamples -/

/-- A concrete identity for user a. -/
def identA : UserIdentity := { peerId := "a", privateKey := "ka", publicKey := "pa" }

/-- A concrete identity for user b. -/
def identB : UserIdentity := { peerId := "b", privateKey := "kb", publicKey := "pb" }

/-- The direct conversation between a and b. -/
def convAB : Conversation := { id := "a_b", type := .direct, participants := ["a", "b"] }

/-- A text message from a, already stored. -/
def msgM1 : Message :=
  { id := "m1", conversationId := "a_b", sender := "a", content := "hi", timestamp := 1
    type := .text }

/-- A concrete SDK state of user a: one conversation with b, one stored
message `m1` sent by a. -/
def exStA : SDKState :=
  { identity := some identA
    conversations := fun c => if c = "a_b" then some convAB else none
    store := fun c => if c = "a_b" then [msgM1] else []
    encryptionKeys := fun c => if c = "a_b" then some "k" else none
    processedMessageIds := fun i => i == "m1"
    notified := []
    node := true }

/-- The same situation seen from user b: `m1` (sent by a) was received
and stored. -/
def exStB : SDKState :=
  { identity := some identB
    conversations := fun c => if c = "a_b" then some convAB else none
    store := fun c => if c = "a_b" then [msgM1] else []
    encryptionKeys := fun c => if c = "a_b" then some "k" else none
    processedMessageIds := fun i => i == "m1"
    notified := []
    node := true }

/-! ## Supporting lemmas -/

/-- Decoding inverts encoding one character at a time. -/
theorem utf8DecodeBytes_encodeChar (c : Char) (rest : List Nat) :
    utf8DecodeBytes (utf8EncodeChar c ++ rest) = c :: utf8DecodeBytes rest := by
  have hofn : Char.ofNat c.toNat = c := Char.ofNat_toNat c
  by_cases h1 : c.toNat < 0x80
  · have hc : contCount c.toNat = 0 := by
      simp only [contCount, if_pos (show c.toNat < 0xC2 by omega)]
    simp only [utf8EncodeChar, if_pos h1, List.cons_append, List.nil_append]
    simp only [utf8DecodeBytes, hc, List.take_zero, List.drop_zero, Nat.not_lt_zero, if_false,
      decodeLead, if_pos h1, hofn]
  · by_cases h2 : c.toNat < 0x800
    · have e1 : ¬ (0xC0 + c.toNat / 64 < 0x80) := by omega
      have e2 : ¬ (0xC0 + c.toNat / 64 < 0xC2) := by omega
      have e3 : 0xC0 + c.toNat / 64 < 0xE0 := by omega
      have hc : contCount (0xC0 + c.toNat / 64) = 1 := by
        simp only [contCount, if_neg e2, if_pos e3]
      have ev : (0xC0 + c.toNat / 64 - 0xC0) * 64 + (0x80 + c.toNat % 64 - 0x80) = c.toNat := by
        omega
      simp only [utf8EncodeChar, if_neg h1, if_pos h2, List.cons_append, List.nil_append]
      simp only [utf8DecodeBytes, hc, List.take_succ_cons, List.take_zero, List.drop_succ_cons,
        List.drop_zero, List.length_cons, if_neg (show ¬ (rest.length + 1 < 1) by omega),
        decodeLead, if_neg e1, if_neg e2, if_pos e3, List.getD_cons_zero, ev, hofn]
    · by_cases h3 : c.toNat < 0x10000
      · have e1 : ¬ (0xE0 + c.toNat / 4096 < 0x80) := by omega
        have e2 : ¬ (0xE0 + c.toNat / 4096 < 0xC2) := by omega
        have e3 : ¬ (0xE0 + c.toNat / 4096 < 0xE0) := by omega
        have e4 : 0xE0 + c.toNat / 4096 < 0xF0 := by omega
        have hc : contCount (0xE0 + c.toNat / 4096) = 2 := by
          simp only [contCount, if_neg e2, if_neg e3, if_pos e4]
        have ev : (0xE0 + c.toNat / 4096 - 0xE0) * 4096 +
            (0x80 + c.toNat / 64 % 64 - 0x80) * 64 + (0x80 + c.toNat % 64 - 0x80) = c.toNat := by
          omega
        simp only [utf8EncodeChar, if_neg h1, if_neg h2, if_pos h3, List.cons_append,
          List.nil_append]
        simp only [utf8DecodeBytes, hc, List.take_succ_cons, List.take_zero, List.drop_succ_cons,
          List.drop_zero, List.length_cons, if_neg (show ¬ (rest.length + 1 + 1 < 2) by omega),
          decodeLead, if_neg e1, if_neg e2, if_neg e3, if_pos e4, List.getD_cons_zero,
          List.getD_cons_succ, ev, hofn]
      · have e1 : ¬ (0xF0 + c.toNat / 262144 < 0x80) := by omega
        have e2 : ¬ (0xF0 + c.toNat / 262144 < 0xC2) := by omega
        have e3 : ¬ (0xF0 + c.toNat / 262144 < 0xE0) := by omega
        have e4 : ¬ (0xF0 + c.toNat / 262144 < 0xF0) := by omega
        have hc : contCount (0xF0 + c.toNat / 262144) = 3 := by
          simp only [contCount, if_neg e2, if_neg e3, if_neg e4]
        have ev : (0xF0 + c.toNat / 262144 - 0xF0) * 262144 +
            (0x80 + c.toNat / 4096 % 64 - 0x80) * 4096 +
            (0x80 + c.toNat / 64 % 64 - 0x80) * 64 + (0x80 + c.toNat % 64 - 0x80) = c.toNat := by
          omega
        simp only [utf8EncodeChar, if_neg h1, if_neg h2, if_neg h3, List.cons_append,
          List.nil_append]
        simp only [utf8DecodeBytes, hc, List.take_succ_cons, List.take_zero, List.drop_succ_cons,
          List.drop_zero, List.length_cons,
          if_neg (show ¬ (rest.length + 1 + 1 + 1 < 3) by omega),
          decodeLead, if_neg e1, if_neg e2, if_neg e3, if_neg e4, List.getD_cons_zero,
          List.getD_cons_succ, ev, hofn]

/-- Decoding inverts encoding for a whole character list. -/
theorem utf8DecodeBytes_flatten (l : List Char) :
    utf8DecodeBytes ((l.map utf8EncodeChar).flatten) = l := by
  induction l with
  | nil => simp only [List.map_nil, List.flatten_nil, utf8DecodeBytes]
  | cons c cs ih =>
    simp only [List.map_cons, List.flatten_cons]
    rw [utf8DecodeBytes_encodeChar, ih]

/-- `TextDecoder.decode` inverts `TextEncoder.encode` on every string. -/
theorem utf8Decode_toUtf8Bytes (s : String) : utf8Decode (toUtf8Bytes s) = s := by
  obtain ⟨l⟩ := s
  simp only [utf8Decode, toUtf8Bytes, utf8DecodeBytes_flatten]

/-- XORing twice with the same key stream is the identity, bytewise. -/
theorem xor_keyStream_cancel (pb kb : List Nat) :
    (List.range ((List.range pb.length).map
        (fun i => pb.getD i 0 ^^^ keyStreamAt kb i)).length).map
      (fun i => ((List.range pb.length).map
        (fun j => pb.getD j 0 ^^^ keyStreamAt kb j)).getD i 0 ^^^ keyStreamAt kb i) = pb := by
  refine List.ext_getElem ?_ ?_
  · simp only [List.length_map, List.length_range]
  · intro n h₁ h₂
    simp only [List.length_map, List.length_range] at h₁
    have hn : n < pb.length := by simpa using h₁
    simp only [List.getElem_map, List.getElem_range]
    have hn2 : n < ((List.range pb.length).map
        (fun j => pb.getD j 0 ^^^ keyStreamAt kb j)).length := by
      simpa using hn
    rw [List.getD_eq_getElem _ _ hn2]
    simp only [List.getElem_map, List.getElem_range]
    rw [List.getD_eq_getElem _ _ hn, Nat.xor_cancel_right]

/-- Sorting two permuted lists gives the same result. -/
theorem jsSort_eq_of_perm {l₁ l₂ : List String} (h : l₁.Perm l₂) : jsSort l₁ = jsSort l₂ :=
  List.eq_of_perm_of_sorted
    (((List.perm_insertionSort _ l₁).trans h).trans (List.perm_insertionSort _ l₂).symm)
    (List.sorted_insertionSort _ l₁) (List.sorted_insertionSort _ l₂)

/-- Sorting is idempotent. -/
theorem jsSort_idem (l : List String) : jsSort (jsSort l) = jsSort l :=
  jsSort_eq_of_perm (List.perm_insertionSort _ l)

/-- `[...new Set([a, b])]` and `[...new Set([b, a])]` are permutations
of each other. -/
theorem jsSetDedup_pair_perm (a b : String) :
    (jsSetDedup [a, b]).Perm (jsSetDedup [b, a]) := by
  by_cases hab : a = b
  · subst hab
    exact List.Perm.refl _
  · have h1 : jsSetDedup [a, b] = [a, b] := by
      simp [jsSetDedup, jsSetDedup.go, Ne.symm hab]
    have h2 : jsSetDedup [b, a] = [b, a] := by
      simp [jsSetDedup, jsSetDedup.go, hab]
    rw [h1, h2]
    exact List.Perm.swap b a []

/-! ## Claim theorems -/

/-- C6: for all plaintexts `x` and all keys `k`,
`decryptMessage (encryptMessage x k) k = x` — the extended variant's
encrypt/decrypt pair is an exact inverse round-trip. -/
theorem decrypt_encrypt_roundtrip (x k : String) :
    decryptMessage (encryptMessage x k) k = x := by
  simp only [decryptMessage, encryptMessage]
  rw [xor_keyStream_cancel (toUtf8Bytes x) (derivedKeyBytes k), utf8Decode_toUtf8Bytes]

/-- C8: appending a message whose id equals an already-appended
message's id is a no-op — the store state (per-conversation log and
dedup set alike) is completely unchanged by the second append. -/
theorem storeMessage_dedup_idempotent (st : SDKState) (m m' : Message)
    (h : m'.id = m.id) :
    storeMessage (storeMessage st m) m' = storeMessage st m := by
  by_cases hp : st.processedMessageIds m.id
  · have h1 : storeMessage st m = st := by simp [storeMessage, hp]
    rw [h1]
    simp [storeMessage, h, hp]
  · have h1 : storeMessage st m =
        { st with
          processedMessageIds := fun i => i == m.id || st.processedMessageIds i
          store := fun c => if c = m.conversationId then st.store c ++ [m] else st.store c } := by
      simp [storeMessage, hp]
    rw [h1]
    simp [storeMessage, h]

/-- Witness for C8 at a concrete state and duplicate message. -/
theorem storeMessage_dedup_idempotent_witness :
    storeMessage (storeMessage exStA
        { id := "m9", conversationId := "a_b", sender := "a", content := "x", timestamp := 3
          type := .text })
        { id := "m9", conversationId := "a_b", sender := "b", content := "y", timestamp := 4
          type := .text } =
      storeMessage exStA
        { id := "m9", conversationId := "a_b", sender := "a", content := "x", timestamp := 3
          type := .text } :=
  storeMessage_dedup_idempotent exStA _ _ rfl

/-- C9: `deleteMessageLocally` removes exactly the entries with the
target id from the target conversation's log, leaves every other
conversation's log untouched, leaves the seen-id dedup set untouched,
and a subsequent duplicate append of that id is silently dropped. -/
theorem deleteMessageLocally_local_only (st : SDKState) (cid mid : String)
    (hseen : st.processedMessageIds mid = true) :
    (deleteMessageLocally st cid mid).store cid =
        (st.store cid).filter (fun m => m.id ≠ mid) ∧
      (∀ c, c ≠ cid → (deleteMessageLocally st cid mid).store c = st.store c) ∧
      (deleteMessageLocally st cid mid).processedMessageIds = st.processedMessageIds ∧
      (∀ m : Message, m.id = mid →
        storeMessage (deleteMessageLocally st cid mid) m = deleteMessageLocally st cid mid) := by
  refine ⟨?_, ?_, rfl, ?_⟩
  · simp [deleteMessageLocally]
  · intro c hc
    simp [deleteMessageLocally, hc]
  · intro m hm
    simp [storeMessage, deleteMessageLocally, hm, hseen]

/-- Witness for C9: delete `m1` from a's store, check the log
projection, the untouched sibling conversation, the untouched dedup set,
and that re-appending a duplicate of `m1` is dropped. -/
theorem deleteMessageLocally_local_only_witness :
    (deleteMessageLocally exStA "a_b" "m1").store "a_b" =
        (exStA.store "a_b").filter (fun m => m.id ≠ "m1") ∧
      (∀ c, c ≠ "a_b" → (deleteMessageLocally exStA "a_b" "m1").store c = exStA.store c) ∧
      (deleteMessageLocally exStA "a_b" "m1").processedMessageIds =
        exStA.processedMessageIds ∧
      (∀ m : Message, m.id = "m1" →
        storeMessage (deleteMessageLocally exStA "a_b" "m1") m =
          deleteMessageLocally exStA "a_b" "m1") :=
  deleteMessageLocally_local_only exStA "a_b" "m1" (by decide)

/-- Appending a fresh tombstone for `mid` and then projecting through
the consumer-side visible-message filter hides both the tombstone and
every message with id `mid`. -/
theorem visible_after_tombstone (st : SDKState) (cid mid : String) (t1 : Message)
    (ht : t1.type = .tombstone) (htf : t1.tombstoneFor = some mid)
    (hcid : t1.conversationId = cid)
    (hfresh : st.processedMessageIds t1.id = false) :
    ∀ m ∈ visibleMessages (getMessages (notifyMessageHandlers (storeMessage st t1) t1) cid),
      m.id ≠ mid ∧ m.type ≠ .tombstone := by
  intro m hm
  have hlog : getMessages (notifyMessageHandlers (storeMessage st t1) t1) cid =
      st.store cid ++ [t1] := by
    simp [getMessages, notifyMessageHandlers, storeMessage, hfresh, hcid]
  rw [hlog] at hm
  simp only [visibleMessages, List.mem_filter] at hm
  obtain ⟨hmem, hpred⟩ := hm
  by_cases hmt : m.type = .tombstone
  · rw [if_pos hmt] at hpred
    exact absurd hpred (by simp)
  · rw [if_neg hmt] at hpred
    refine ⟨?_, hmt⟩
    intro hmid
    have hany : (st.store cid ++ [t1]).any
        (fun t => t.type == .tombstone && t.tombstoneFor == some m.id) = true := by
      refine List.any_eq_true.mpr ⟨t1, by simp, ?_⟩
      simp [ht, htf, hmid]
    simp [hany] at hpred

/-- C1 (counterexample to the claim as stated): `getMessages` — the
consumer-facing query of the SDK — returns the raw log, which after a
successful `revokeMessage` still contains a tombstone entry and still
contains the revoked message id. -/
theorem revoke_getMessages_contains_tombstone_cex :
    ∃ st', revokeMessage exStA "a_b" "m1" "t1" 2 = Except.ok ("t1", st') ∧
      (getMessages st' "a_b").any (fun m => m.type == .tombstone) = true ∧
      (getMessages st' "a_b").any (fun m => m.id == "m1") = true := by
  refine ⟨_, rfl, ?_, ?_⟩ <;> decide

/-- C1 (amended): after `revokeMessage(cid, mid)` succeeds, the
visible-message projection computed by the repository's consumers over
`getMessages(cid)` contains no message with id `mid` and no tombstone
entry; `getMessages` itself returns the raw log including both. -/
theorem revoke_visible_projection_hides_target (st : SDKState) (cid mid tid : String)
    (now : Nat) (st' : SDKState)
    (hfresh : st.processedMessageIds tid = false)
    (hok : revokeMessage st cid mid tid now = .ok (tid, st')) :
    ∀ m ∈ visibleMessages (getMessages st' cid), m.id ≠ mid ∧ m.type ≠ .tombstone := by
  rcases hident : st.identity with _ | ident
  · simp only [revokeMessage, hident] at hok
    exact Except.noConfusion hok
  · rcases hconv : st.conversations cid with _ | conv
    · simp only [revokeMessage, hident, hconv] at hok
      exact Except.noConfusion hok
    · rcases hfind : (getMessages st cid).find? (fun m => m.id == mid) with _ | target
      · simp only [revokeMessage, hident, hconv, hfind] at hok
        simp only [Except.ok.injEq, Prod.mk.injEq, true_and] at hok
        subst hok
        exact visible_after_tombstone st cid mid _ rfl rfl rfl hfresh
      · by_cases hs : target.sender ≠ ident.peerId
        · simp only [revokeMessage, hident, hconv, hfind, if_pos hs] at hok
          exact Except.noConfusion hok
        · simp only [revokeMessage, hident, hconv, hfind, if_neg hs] at hok
          simp only [Except.ok.injEq, Prod.mk.injEq, true_and] at hok
          subst hok
          exact visible_after_tombstone st cid mid _ rfl rfl rfl hfresh

/-- Witness for C1 (amended) at a concrete revocation by the sender. -/
theorem revoke_visible_projection_hides_target_witness :
    ∃ st', revokeMessage exStA "a_b" "m1" "t1" 2 = Except.ok ("t1", st') ∧
      ∀ m ∈ visibleMessages (getMessages st' "a_b"), m.id ≠ "m1" ∧ m.type ≠ .tombstone := by
  refine ⟨_, rfl, ?_⟩
  exact revoke_visible_projection_hides_target exStA "a_b" "m1" "t1" 2 _ (by decide) rfl

/-- C2: when the target message is stored in the conversation and its
sender differs from the caller's identity, `revokeMessage` fails with
the not-author-sender error; no tombstone is produced and no state is
returned, so the store is unchanged. -/
theorem revokeMessage_nonSender_fails (st : SDKState) (cid mid tid : String) (now : Nat)
    (ident : UserIdentity) (conv : Conversation) (target : Message)
    (hid : st.identity = some ident)
    (hconv : st.conversations cid = some conv)
    (hfind : (getMessages st cid).find? (fun m => m.id == mid) = some target)
    (hsender : target.sender ≠ ident.peerId) :
    revokeMessage st cid mid tid now = .error .notAuthorSender := by
  simp only [revokeMessage, hid, hconv, hfind, if_pos hsender]

/-- Witness for C2: b attempts to revoke a's message `m1`. -/
theorem revokeMessage_nonSender_fails_witness :
    revokeMessage exStB "a_b" "m1" "t1" 2 = .error .notAuthorSender :=
  revokeMessage_nonSender_fails exStB "a_b" "m1" "t1" 2 identB convAB msgM1
    rfl (by decide) (by decide) (by decide)

/-- C10 (implicit behaviour): when the target id is not found in the
caller's local log, `revokeMessage` performs no sender-authorization
check: it succeeds for any identity, stores a tombstone with
`tombstoneFor = mid`, and returns the tombstone id. -/
theorem revokeMessage_missing_target_skips_auth (st : SDKState) (cid mid tid : String)
    (now : Nat) (ident : UserIdentity) (conv : Conversation)
    (hid : st.identity = some ident)
    (hconv : st.conversations cid = some conv)
    (hfind : (getMessages st cid).find? (fun m => m.id == mid) = none)
    (hfresh : st.processedMessageIds tid = false) :
    ∃ st', revokeMessage st cid mid tid now = .ok (tid, st') ∧
      ∃ t ∈ st'.store cid, t.id = tid ∧ t.type = .tombstone ∧ t.tombstoneFor = some mid := by
  simp only [revokeMessage, hid, hconv, hfind]
  refine ⟨_, rfl, mkTombstone cid mid tid ident.peerId now, ?_, rfl, rfl, rfl⟩
  simp [notifyMessageHandlers, storeMessage, mkTombstone, hfresh]

/-- Witness for C10: b revokes the never-stored id `zz` in a
conversation whose only stored message belongs to a; the call still
succeeds and stores the tombstone. -/
theorem revokeMessage_missing_target_skips_auth_witness :
    ∃ st', revokeMessage exStB "a_b" "zz" "t1" 2 = .ok ("t1", st') ∧
      ∃ t ∈ st'.store "a_b", t.id = "t1" ∧ t.type = .tombstone ∧
        t.tombstoneFor = some "zz" :=
  revokeMessage_missing_target_skips_auth exStB "a_b" "zz" "t1" 2 identB convAB
    rfl (by decide) (by decide) (by decide)

/-- An empty SDK state for identity a (no conversations yet). -/
def exStA0 : SDKState :=
  { identity := some identA
    conversations := fun _ => none
    store := fun _ => []
    encryptionKeys := fun _ => none
    processedMessageIds := fun _ => false
    notified := []
    node := false }

/-- An empty SDK state for identity b (no conversations yet). -/
def exStB0 : SDKState :=
  { identity := some identB
    conversations := fun _ => none
    store := fun _ => []
    encryptionKeys := fun _ => none
    processedMessageIds := fun _ => false
    notified := []
    node := false }

/-- C5: two identities creating the direct conversation with each other
as sole participant derive the identical conversation id without any
message exchange, and that id is the sorted, deduplicated participant
list (own id inserted) joined with the fixed separator `"_"`. -/
theorem createConversation_direct_deterministic_id
    (stA stB : SDKState) (a b : UserIdentity) (nameA nameB : Option String) (uA uB : String)
    (hA : stA.identity = some a) (hB : stB.identity = some b)
    (hA2 : stA.conversations
        (String.intercalate "_" (jsSort (jsSetDedup [a.peerId, b.peerId]))) = none)
    (hB2 : stB.conversations
        (String.intercalate "_" (jsSort (jsSetDedup [a.peerId, b.peerId]))) = none) :
    ∃ cA stA' cB stB',
      createConversation stA [b.peerId] .direct nameA uA = .ok (cA, stA') ∧
      createConversation stB [a.peerId] .direct nameB uB = .ok (cB, stB') ∧
      cA.id = String.intercalate "_" (jsSort (jsSetDedup [a.peerId, b.peerId])) ∧
      cB.id = cA.id := by
  have e1 : jsSort (jsSort (jsSetDedup [a.peerId, b.peerId])) =
      jsSort (jsSetDedup [a.peerId, b.peerId]) := jsSort_idem _
  have eB : jsSort (jsSetDedup [b.peerId, a.peerId]) =
      jsSort (jsSetDedup [a.peerId, b.peerId]) :=
    jsSort_eq_of_perm (jsSetDedup_pair_perm b.peerId a.peerId)
  simp only [createConversation, hA, hB, generateConversationId, eB, e1, hA2, hB2]
  exact ⟨_, _, _, _, rfl, rfl, rfl, rfl⟩

/-- Witness for C5: concrete identities a and b, both starting from
empty registries. -/
theorem createConversation_direct_deterministic_id_witness :
    ∃ cA stA' cB stB',
      createConversation exStA0 [identB.peerId] .direct none "u1" = .ok (cA, stA') ∧
      createConversation exStB0 [identA.peerId] .direct none "u2" = .ok (cB, stB') ∧
      cA.id = String.intercalate "_" (jsSort (jsSetDedup [identA.peerId, identB.peerId])) ∧
      cB.id = cA.id :=
  createConversation_direct_deterministic_id exStA0 exStB0 identA identB none none "u1" "u2"
    rfl rfl rfl rfl

/-- C7: `sendMessage` is local-first — under the preconditions (known
conversation, key present, fresh uuid) it appends the built message to
the local store and dispatches it to the local handlers before any
publish attempt (trace order), and for every publish outcome, including
failure, it returns the generated message id with the identical local
state. -/
theorem sendMessage_local_first (st : SDKState) (cid content nid : String) (now : Nat)
    (ident : UserIdentity) (conv : Conversation) (key : String)
    (hid : st.identity = some ident)
    (hconv : st.conversations cid = some conv)
    (hkey : st.encryptionKeys cid = some key)
    (hfresh : st.processedMessageIds nid = false) :
    ∃ st', (∀ publishOk : Bool,
        sendMessage st cid content nid now publishOk =
          .ok (nid, st', [Event.appended nid, Event.notified nid] ++
            (if st.node then [Event.publishAttempted nid publishOk] else []))) ∧
      (∃ m ∈ st'.store cid, m.id = nid ∧ m.content = content) ∧
      (∃ m ∈ st'.notified, m.id = nid) := by
  simp only [sendMessage, hid, hconv, hkey]
  refine ⟨_, fun ok => rfl,
    ⟨mkSentMessage cid content nid ident.peerId key now, ?_, rfl, rfl⟩,
    ⟨mkSentMessage cid content nid ident.peerId key now, ?_, rfl⟩⟩
  · simp [notifyMessageHandlers, storeMessage, mkSentMessage, hfresh]
  · simp [notifyMessageHandlers, storeMessage, mkSentMessage, hfresh]

/-- Witness for C7 at a concrete state (node attached, fresh uuid). -/
theorem sendMessage_local_first_witness :
    ∃ st', (∀ publishOk : Bool,
        sendMessage exStA "a_b" "yo" "m2" 2 publishOk =
          .ok ("m2", st', [Event.appended "m2", Event.notified "m2"] ++
            (if exStA.node then [Event.publishAttempted "m2" publishOk] else []))) ∧
      (∃ m ∈ st'.store "a_b", m.id = "m2" ∧ m.content = "yo") ∧
      (∃ m ∈ st'.notified, m.id = "m2") :=
  sendMessage_local_first exStA "a_b" "yo" "m2" 2 identA convAB "k"
    rfl (by decide) (by decide) (by decide)


set_option maxRecDepth 40000 in
set_option maxHeartbeats 4000000 in
/-- C3 (code bug): `signMessage` excludes only the `signature` field
from the hashed serialization, not `mac`.  `sendMessage` signs before
assigning `mac`, so the stored message's signature hashes the mac-free
serialization, while `verifySignature` recomputes over the serialization
that now includes `mac`.  Hence the message that `sendMessage` builds
and stores fails its own signature verification (while its MAC, whose
computation excludes both fields, verifies), and a message with no
signature field fails verification as specified. -/
theorem verifySignature_fails_on_sent_message :
    (∃ st' ev, sendMessage exStA "a_b" "hi" "m2" 2 true = Except.ok ("m2", st', ev) ∧
      mkSentMessage "a_b" "hi" "m2" "a" "k" 2 ∈ st'.store "a_b") ∧
    verifySignature (mkSentMessage "a_b" "hi" "m2" "a" "k" 2) = false ∧
    verifyMAC (mkSentMessage "a_b" "hi" "m2" "a" "k" 2) "k" = true ∧
    verifySignature { mkSentMessage "a_b" "hi" "m2" "a" "k" 2 with signature := none } = false := by
  refine ⟨⟨_, _, rfl, ?_⟩, ?_, ?_, rfl⟩
  · simp [notifyMessageHandlers, storeMessage, mkSentMessage, exStA, identA, msgM1]
  · decide
  · decide

set_option maxRecDepth 40000 in
set_option maxHeartbeats 4000000 in
/-- C4 (code bug): the extended variant's key derivation mixes the
caller's own public key into the hash, so two instances holding
distinct identities derive different symmetric keys for the very same
conversation id — contradicting the source's own comment that all users
of a conversation share the key (the basic variant, hashing the
conversation id alone, does satisfy the claim). -/
theorem generateEncryptionKey_distinct_identities_differ :
    generateEncryptionKey convAB.id identA.publicKey ≠
      generateEncryptionKey convAB.id identB.publicKey := by
  decide
